import Mathlib

set_option maxHeartbeats 1000000

/-!
Shallow embedding of the diffused-rays raycaster and its asynchronous
stylization pipeline, together with proofs of the testable properties of
its specification.  Real-valued Python floats are embedded as exact
rationals; Python `int()` is embedded as truncation toward zero; the IEEE
special values `inf` and `nan` produced by the DDA setup are embedded by
the dedicated type `PyF`.
-/

/-- Python `int()` applied to a rational: truncation toward zero. -/
def pyTrunc (q : ℚ) : ℤ := if 0 ≤ q then ⌊q⌋ else ⌈q⌉

/-- Embeds `Map` from game_state.py: an immutable 2D grid of small integers,
0 = empty, 1+ = wall type. -/
structure GameMap where
  grid : List (List ℕ)

/-- Embeds `Map.height = len(grid)`. -/
def GameMap.height (m : GameMap) : ℕ := m.grid.length

/-- Embeds `Map.width = len(grid[0]) if height > 0 else 0`. -/
def GameMap.width (m : GameMap) : ℕ := (m.grid.headD []).length

/-- Embeds `Map.get_cell` (game_state.py lines 74-78): the value at grid
position (x, y), returning 1 for any coordinate outside
[0,width) x [0,height). -/
def GameMap.get_cell (m : GameMap) (x y : ℤ) : ℕ :=
  if 0 ≤ x ∧ x < (m.width : ℤ) ∧ 0 ≤ y ∧ y < (m.height : ℤ) then
    (m.grid.getD y.toNat []).getD x.toNat 0
  else 1

/-- Embeds `Map.is_wall` (game_state.py lines 80-84): the world position is
converted to a cell with Python `int()` and tested for a non-zero cell. -/
def GameMap.is_wall (m : GameMap) (x y : ℚ) : Bool :=
  m.get_cell (pyTrunc x) (pyTrunc y) != 0

/-- The clearance test performed by `Player._try_move` before committing one
axis of a move: the target point and its four corner points at margin 0.2
must all be non-wall. -/
def checkClear (m : GameMap) (x y : ℚ) : Bool :=
  !(m.is_wall x y) &&
  !(m.is_wall (x + 2/10) (y + 2/10)) &&
  !(m.is_wall (x + 2/10) (y - 2/10)) &&
  !(m.is_wall (x - 2/10) (y + 2/10)) &&
  !(m.is_wall (x - 2/10) (y - 2/10))

/-- Embeds `Player._try_move` (game_state.py lines 41-62): the X displacement
is committed first when its clearance test passes, then the Y displacement is
tested from the (possibly updated) X position. -/
def tryMove (m : GameMap) (x y newX newY : ℚ) : ℚ × ℚ :=
  let x1 := if checkClear m newX y then newX else x
  let y1 := if checkClear m x1 newY then newY else y
  (x1, y1)

/-- Python float values arising in the DDA setup: a finite value, the two
infinities produced by `abs(1/ray_dir)` when a ray direction component is 0,
and `nan` produced by `0 * inf`. -/
inductive PyF where
  | fin : ℚ → PyF
  | pinf : PyF
  | ninf : PyF
  | nan : PyF

/-- Python `<` on `PyF` values: any comparison involving `nan` is false,
`inf < inf` is false, `-inf` is below every non-`nan` value. -/
def PyF.lt : PyF → PyF → Bool
  | .fin a, .fin b => decide (a < b)
  | .fin _, .pinf => true
  | .ninf, .fin _ => true
  | .ninf, .pinf => true
  | _, _ => false

/-- Python `+` on `PyF` values: `nan` is absorbing and opposite infinities
give `nan`. -/
def PyF.add : PyF → PyF → PyF
  | .nan, _ => .nan
  | _, .nan => .nan
  | .fin a, .fin b => .fin (a + b)
  | .pinf, .ninf => .nan
  | .ninf, .pinf => .nan
  | .pinf, _ => .pinf
  | _, .pinf => .pinf
  | .ninf, _ => .ninf
  | _, .ninf => .ninf

/-- Embeds `delta_dist = abs(1/ray_dir) if ray_dir != 0 else float('inf')`
(raycaster.py lines 87-88). -/
def deltaDist (r : ℚ) : PyF :=
  if r = 0 then .pinf else .fin |1 / r|

/-- Python multiplication of a finite float by a `PyF` value, as used for the
initial `side_dist` products (raycaster.py lines 91-103): multiplying an
infinity by 0 gives `nan`, by a positive value keeps it, by a negative value
flips it. -/
def sideDistMul (c : ℚ) (d : PyF) : PyF :=
  match d with
  | .fin b => .fin (c * b)
  | .pinf => if c = 0 then .nan else if 0 < c then .pinf else .ninf
  | .ninf => if c = 0 then .nan else if 0 < c then .ninf else .pinf
  | .nan => .nan

/-- The mutable state of the DDA loop of `cast_rays` (raycaster.py
lines 105-122). -/
structure DDAState where
  mapX : ℤ
  mapY : ℤ
  stepX : ℤ
  stepY : ℤ
  sideDistX : PyF
  sideDistY : PyF
  deltaX : PyF
  deltaY : PyF
  side : ℕ

/-- One iteration of the DDA loop body: step to the nearer grid-line
crossing, advancing the corresponding cell coordinate and recording which
axis was stepped. -/
def ddaStep (s : DDAState) : DDAState :=
  if s.sideDistX.lt s.sideDistY then
    { s with sideDistX := s.sideDistX.add s.deltaX, mapX := s.mapX + s.stepX, side := 0 }
  else
    { s with sideDistY := s.sideDistY.add s.deltaY, mapY := s.mapY + s.stepY, side := 1 }

/-- The DDA loop of `cast_rays`: step, then test the entered cell, until a
non-zero cell is found; `fuel` bounds the number of iterations so the
function is total, and `none` means the bound was exhausted. -/
def ddaLoop (m : GameMap) : ℕ → DDAState → Option (DDAState × ℕ)
  | 0, _ => none
  | fuel + 1, s =>
    let t := ddaStep s
    let w := m.get_cell t.mapX t.mapY
    if w ≠ 0 then some (t, w) else ddaLoop m fuel t

/-- Number of steps each axis can take before its cell coordinate leaves the
map in its fixed step direction; the sum bounds the remaining DDA
iterations. -/
def ddaMeasure (m : GameMap) (s : DDAState) : ℕ :=
  (if s.stepX = 1 then ((m.width : ℤ) - s.mapX).toNat else (s.mapX + 1).toNat) +
  (if s.stepY = 1 then ((m.height : ℤ) - s.mapY).toNat else (s.mapY + 1).toNat)

/-- The DDA initialisation of `cast_rays` (raycaster.py lines 82-103) for one
column: starting cell via Python `int()`, per-axis deltas, step directions
and initial side distances. -/
def ddaInit (px py rx ry : ℚ) : DDAState where
  mapX := pyTrunc px
  mapY := pyTrunc py
  stepX := if rx < 0 then -1 else 1
  stepY := if ry < 0 then -1 else 1
  sideDistX :=
    if rx < 0 then sideDistMul (px - (pyTrunc px : ℚ)) (deltaDist rx)
    else sideDistMul ((pyTrunc px : ℚ) + 1 - px) (deltaDist rx)
  sideDistY :=
    if ry < 0 then sideDistMul (py - (pyTrunc py : ℚ)) (deltaDist ry)
    else sideDistMul ((pyTrunc py : ℚ) + 1 - py) (deltaDist ry)
  deltaX := deltaDist rx
  deltaY := deltaDist ry
  side := 0

/-- Embeds the clamp `perp_dist = max(0.001, min(perp_dist, MAX_DEPTH))`
(raycaster.py line 135) with `MAX_DEPTH = 25`. -/
def clampDepth (p : ℚ) : ℚ := max (1/1000) (min p 25)

/-- Embeds the unclamped perpendicular-distance computation of `cast_rays`
(raycaster.py lines 124-133), with the division-by-zero guard falling back
to `MAX_DEPTH`. -/
def perpDistRaw (side : ℕ) (mX mY sX sY : ℤ) (px py rx ry : ℚ) : ℚ :=
  if side = 0 then
    if rx ≠ 0 then ((mX : ℚ) - px + (1 - (sX : ℚ)) / 2) / rx else 25
  else
    if ry ≠ 0 then ((mY : ℚ) - py + (1 - (sY : ℚ)) / 2) / ry else 25

/-- Embeds the per-column shading of `cast_rays` (raycaster.py lines
146-148): `shade = max(0.15, 1 - perp_dist/MAX_DEPTH)`, multiplied by
`EW_SHADE_FACTOR = 0.7` for east/west walls (`side = 1`). -/
def shadeFactor (perpDist : ℚ) (side : ℕ) : ℚ :=
  if side = 1 then (max (15/100) (1 - perpDist / 25)) * (7/10)
  else max (15/100) (1 - perpDist / 25)

/-- Embeds `wall_height = int(height / perp_dist)` (raycaster.py line 138)
with `RENDER_HEIGHT = 256`. -/
def wallHeight (perpDist : ℚ) : ℤ := pyTrunc (256 / perpDist)

/-- Embeds `queue.Queue(maxsize=1).get_nowait()`: returns the held value and
empties the slot, or raises `Empty`. -/
def getNowait {α : Type} (q : Option α) : Except Unit α × Option α :=
  match q with
  | some v => (Except.ok v, none)
  | none => (Except.error (), none)

/-- Embeds `queue.Queue(maxsize=1).put_nowait(v)`: installs the value when
the slot is empty, or raises `Full` leaving the slot unchanged. -/
def putNowait {α : Type} (q : Option α) (v : α) : Except Unit Unit × Option α :=
  match q with
  | none => (Except.ok (), some v)
  | some w => (Except.error (), some w)

/-- Embeds `config.SD_PROMPT`, the default prompt used when `submit_frame`
is called without one; prompts are abstracted to naturals. -/
def SD_PROMPT : ℕ := 0

/-- Embeds `AsyncStylizer.submit_frame` (stylizer.py lines 188-201): evict
any pending pair with `get_nowait` (its `Empty` swallowed), then
`put_nowait` the new (frame, prompt) pair, the whole wrapped in a bare
`except: pass`.  `worker` is the adversarial content of the input slot at
the instant of the `put_nowait` (the worker thread may interleave between
the two queue calls); `none` means the slot is still empty. -/
def submitFrame (q0 : Option (ℕ × ℕ)) (worker : Option (ℕ × ℕ) → Option (ℕ × ℕ))
    (frame : ℕ) (prompt : Option ℕ) : Except Unit Unit × Option (ℕ × ℕ) :=
  let pr := prompt.getD SD_PROMPT
  let q1 := (getNowait q0).2
  let q2 := worker q1
  match putNowait q2 (frame, pr) with
  | (Except.ok _, q3) => (Except.ok (), q3)
  | (Except.error _, q3) => (Except.ok (), q3)

/-- Embeds `AsyncTextureStylizer.submit` (texture_manager.py lines 189-198):
identical single-slot evict-then-install structure, with a mandatory
prompt. -/
def textureSubmit (q0 : Option (ℕ × ℕ)) (worker : Option (ℕ × ℕ) → Option (ℕ × ℕ))
    (atlas : ℕ) (prompt : ℕ) : Except Unit Unit × Option (ℕ × ℕ) :=
  let q1 := (getNowait q0).2
  let q2 := worker q1
  match putNowait q2 (atlas, prompt) with
  | (Except.ok _, q3) => (Except.ok (), q3)
  | (Except.error _, q3) => (Except.ok (), q3)

/-- The output-side state of `AsyncStylizer`: the single-slot output queue
and the cached `last_output`. -/
structure StylizerOut where
  outputSlot : Option ℕ
  lastOutput : Option ℕ

/-- Embeds `AsyncStylizer.get_result` (stylizer.py lines 203-209): a
non-blocking read that stores any new result into `last_output` and then
returns `last_output`. -/
def getResult (s : StylizerOut) : Option ℕ × StylizerOut :=
  match s.outputSlot with
  | some r => (some r, { outputSlot := none, lastOutput := some r })
  | none => (s.lastOutput, s)

/-- Embeds `AsyncTextureStylizer.get_result` (texture_manager.py lines
200-204): a non-blocking read returning the new result or `none`. -/
def textureGetResult (q : Option ℕ) : Option ℕ × Option ℕ :=
  match q with
  | some r => (some r, none)
  | none => (none, q)

/-- Modelled from the spec: the external img2img transformation (the neural
stylizer, an out-of-scope collaborator) is an opaque image-to-image
function; only the production of some result image matters here. -/
def stylizeModel (frame : ℕ) : ℕ := frame + 1

/-- The operations of the async pipeline observable by the claims: a
submission from the render thread, lifecycle control, and one iteration of
the worker loop body (whose stylization attempt may fail). -/
inductive PipeOp where
  | submit (frame prompt : ℕ) : PipeOp
  | start : PipeOp
  | stop : PipeOp
  | work (ok : Bool) : PipeOp

/-- The state of one `AsyncStylizer` instance: the `running` flag, the two
single-slot queues and the `frames_processed` counter. -/
structure PipeState where
  running : Bool
  inputSlot : Option (ℕ × ℕ)
  outputSlot : Option ℕ
  framesProcessed : ℕ

/-- Embeds `AsyncStylizer.__init__` (stylizer.py lines 130-136): empty
queues, not running, `frames_processed = 0`. -/
def initPipe : PipeState :=
  { running := false, inputSlot := none, outputSlot := none, framesProcessed := 0 }

/-- One pipeline operation: `submit_frame` evicts and installs; `start` and
`stop` toggle `running` (`stop` also drains the input queue); one `work`
iteration of `_process_loop` (stylizer.py lines 162-186) consumes the
pending pair when running, and on success replaces the output slot and
increments `frames_processed`; a failed stylization is swallowed. -/
def applyOp (s : PipeState) : PipeOp → PipeState
  | .submit f p => { s with inputSlot := some (f, p) }
  | .start => { s with running := true }
  | .stop => { s with running := false, inputSlot := none }
  | .work ok =>
    if s.running then
      match s.inputSlot with
      | none => s
      | some (f, _) =>
        if ok then
          { s with inputSlot := none, outputSlot := some (stylizeModel f),
                   framesProcessed := s.framesProcessed + 1 }
        else { s with inputSlot := none }
    else s

/-- Run a sequence of pipeline operations from the freshly constructed
state. -/
def runOps (ops : List PipeOp) : PipeState := ops.foldl applyOp initPipe

/-- The number of submissions in a sequence of pipeline operations. -/
def countSubmits (ops : List PipeOp) : ℕ :=
  ops.countP fun op => match op with | .submit _ _ => true | _ => false

/-- 1 when a submitted pair is pending in the input slot, else 0. -/
def pendingCount (s : PipeState) : ℕ := if s.inputSlot.isSome then 1 else 0

/-- Embeds `TextureManager._get_tile_position` (texture_manager.py lines
28-33), x component: tiles are 64 px wide in a 4 x 2 grid. -/
def tilePosX (wallType : ℕ) : ℕ := ((wallType - 1) % 4) * 64

/-- Embeds `TextureManager._get_tile_position`, y component. -/
def tilePosY (wallType : ℕ) : ℕ := ((wallType - 1) / 4) * 64

/-- One assignment `atlas[y:y+64, x:x+64] = tile` of `create_base_atlas`,
as a pointwise overwrite of the atlas pixel function. -/
def placeTile (atlas : ℕ → ℕ → ℕ) (wallType : ℕ) (tile : ℕ → ℕ → ℕ) : ℕ → ℕ → ℕ :=
  fun y x =>
    if tilePosY wallType ≤ y ∧ y < tilePosY wallType + 64 ∧
       tilePosX wallType ≤ x ∧ x < tilePosX wallType + 64 then
      tile (y - tilePosY wallType) (x - tilePosX wallType)
    else atlas y x

/-- Embeds `TextureManager.create_base_atlas` (texture_manager.py lines
62-72) generalised over the placed tiles: starting from a zero atlas, the
tiles for wall types 1..8 are placed in order at their fixed grid
offsets. -/
def createBaseAtlas (tiles : ℕ → ℕ → ℕ → ℕ) : ℕ → ℕ → ℕ :=
  placeTile (placeTile (placeTile (placeTile (placeTile (placeTile (placeTile (placeTile
    (fun _ _ => 0) 1 (tiles 1)) 2 (tiles 2)) 3 (tiles 3)) 4 (tiles 4))
    5 (tiles 5)) 6 (tiles 6)) 7 (tiles 7)) 8 (tiles 8)

/-- The slice `atlas[y:y+64, x:x+64]` taken by `split_atlas` for one wall
type, on an atlas of the exact 128 x 256 dimensions (no resampling). -/
def splitTileAt (atlas : ℕ → ℕ → ℕ) (wallType : ℕ) : ℕ → ℕ → ℕ :=
  fun r c => atlas (tilePosY wallType + r) (tilePosX wallType + c)

/-- A numpy RGB image: height, width and a pixel function (channels
abstracted into the pixel value). -/
structure NpImage where
  h : ℕ
  w : ℕ
  pix : ℕ → ℕ → ℕ

/-- Modelled from the spec: `PIL.Image.resize` is an external collaborator;
the spec relies only on it returning an image of exactly the requested
dimensions, with area-preserving resampling of the content. -/
def resizeTo (img : NpImage) (targetW targetH : ℕ) : NpImage where
  h := targetH
  w := targetW
  pix := fun y x => img.pix (y * img.h / targetH) (x * img.w / targetW)

/-- The dimension correction at the head of `TextureManager.split_atlas`
(texture_manager.py lines 74-81): an incoming atlas whose shape differs
from (128, 256) is resized to exactly that shape before slicing. -/
def atlasSource (img : NpImage) : NpImage :=
  if img.h = 128 ∧ img.w = 256 then img else resizeTo img 256 128

/-- The 64 x 64 slice of `split_atlas` for one wall type, with an explicit
bounds check: `none` models a slice that would not have the full 64 x 64
shape. -/
def cropTile (img : NpImage) (wallType : ℕ) : Option NpImage :=
  if tilePosY wallType + 64 ≤ img.h ∧ tilePosX wallType + 64 ≤ img.w then
    some { h := 64, w := 64,
           pix := fun r c => img.pix (tilePosY wallType + r) (tilePosX wallType + c) }
  else none

/-- Embeds `TextureManager.split_atlas` for one wall type: resize-if-needed,
then slice. -/
def styledTile (img : NpImage) (wallType : ℕ) : Option NpImage :=
  cropTile (atlasSource img) wallType

/-- Embeds the per-channel frame blend of the main loop (main.py lines
221-230): full styled frame at blend 1 or above, raw frame at blend 0 or
below, else the linear blend computed in floating point and cast to uint8
(truncation, modulo 256). -/
def composite (beta : ℚ) (raw styled : ℕ) : ℕ :=
  if 1 ≤ beta then styled
  else if beta ≤ 0 then raw
  else (pyTrunc ((raw : ℚ) * (1 - beta) + (styled : ℚ) * beta)).toNat % 256

/-- For nonnegative arguments Python truncation agrees with the floor. -/
theorem pyTrunc_eq_floor {q : ℚ} (h : 0 ≤ q) : pyTrunc q = ⌊q⌋ := by
  simp [pyTrunc, h]

/-- C9: the projected wall height `int(256 / perp_dist)` is monotonically
non-increasing in the perpendicular distance, and at distance 1 it equals
exactly the screen height 256. -/
theorem wall_height_inverse_law (p1 p2 : ℚ) (h0 : 0 < p1) (h12 : p1 ≤ p2) :
    wallHeight p2 ≤ wallHeight p1 ∧ wallHeight 1 = 256 := by
  constructor
  · have h02 : 0 < p2 := lt_of_lt_of_le h0 h12
    have hle : (256 : ℚ) / p2 ≤ 256 / p1 := by gcongr
    have hn2 : (0 : ℚ) ≤ 256 / p2 := by positivity
    have hn1 : (0 : ℚ) ≤ 256 / p1 := by positivity
    rw [wallHeight, wallHeight, pyTrunc_eq_floor hn2, pyTrunc_eq_floor hn1]
    exact Int.floor_le_floor hle
  · rw [wallHeight, pyTrunc_eq_floor (by norm_num)]
    norm_num

/-- Witness for C9 at concrete distances 2 and 3. -/
theorem wall_height_inverse_law_witness :
    wallHeight 3 ≤ wallHeight 2 ∧ wallHeight 1 = 256 :=
  wall_height_inverse_law 2 3 (by norm_num) (by norm_num)

/-- C2 counterexample: at the maximum depth an east/west wall's shading
factor is 0.105, strictly below the configured floor shade 0.15, so the
shading factor is not bounded below by the floor shade for every wall. -/
theorem shade_floor_bound_fails_for_ew : shadeFactor 25 1 < 15/100 := by
  rw [shadeFactor, if_pos rfl, max_eq_left (by norm_num)]
  norm_num

/-- C2 amended: the shading factor is monotonically non-increasing in the
perpendicular distance; it is bounded below by the floor shade 0.15 for
north/south walls and by 0.15 * EW_SHADE_FACTOR for east/west walls; and at
equal distance the east/west shade equals the north/south shade times
exactly EW_SHADE_FACTOR = 0.7. -/
theorem shade_monotone_bounds_factor (p1 p2 p : ℚ) (side : ℕ) (h12 : p1 ≤ p2) :
    shadeFactor p2 side ≤ shadeFactor p1 side ∧
    15/100 ≤ shadeFactor p 0 ∧
    (15/100) * (7/10) ≤ shadeFactor p 1 ∧
    shadeFactor p 1 = shadeFactor p 0 * (7/10) := by
  have hbase : max (15/100 : ℚ) (1 - p2 / 25) ≤ max (15/100) (1 - p1 / 25) :=
    max_le_max le_rfl (by linarith)
  refine ⟨?_, ?_, ?_, ?_⟩
  · by_cases hs : side = 1
    · simp only [shadeFactor, hs, if_pos]
      exact mul_le_mul_of_nonneg_right hbase (by norm_num)
    · simp only [shadeFactor, hs, if_neg, ite_false]
      exact hbase
  · simp only [shadeFactor, ite_false, one_ne_zero]
    norm_num [le_max_iff]
  · simp only [shadeFactor, if_pos]
    exact mul_le_mul_of_nonneg_right (le_max_left _ _) (by norm_num)
  · simp [shadeFactor]

/-- Witness for C2 (amended) at concrete distances 1 and 2. -/
theorem shade_monotone_bounds_factor_witness :
    shadeFactor 2 0 ≤ shadeFactor 1 0 ∧
    15/100 ≤ shadeFactor 3 0 ∧
    (15/100) * (7/10) ≤ shadeFactor 3 1 ∧
    shadeFactor 3 1 = shadeFactor 3 0 * (7/10) :=
  shade_monotone_bounds_factor 1 2 3 0 (by norm_num)

/-- C3: one call to `submit_frame` / `submit`, against any prior state of
the single-slot input queue and any interleaved worker activity, returns
normally (never an exception escapes, never a wait), after evicting the
pending pair; the new pair is installed when the slot is free at the
install, and otherwise the submission is silently dropped (the slot keeps
the interfering content). -/
theorem submit_never_blocks_or_raises (q0 : Option (ℕ × ℕ))
    (worker : Option (ℕ × ℕ) → Option (ℕ × ℕ)) (frame : ℕ) (prompt : Option ℕ)
    (atlas tprompt : ℕ) :
    (submitFrame q0 worker frame prompt).1 = Except.ok () ∧
    (submitFrame q0 worker frame prompt).2 =
      some ((worker none).getD (frame, prompt.getD SD_PROMPT)) ∧
    (textureSubmit q0 worker atlas tprompt).1 = Except.ok () ∧
    (textureSubmit q0 worker atlas tprompt).2 =
      some ((worker none).getD (atlas, tprompt)) := by
  have hq : (getNowait q0).2 = none := by cases q0 <;> rfl
  cases hw : worker none <;>
    simp [submitFrame, textureSubmit, hq, hw, putNowait]

/-- C4 counterexample: after a result has been fetched once, a further
`AsyncStylizer.get_result` with nothing new in the output queue returns the
cached previous result, not `none`. -/
theorem get_result_returns_cached_not_none :
    (getResult (getResult { outputSlot := some 7, lastOutput := none }).2).1 ≠ none := by
  decide

/-- C4 amended: both readers are non-blocking state functions;
`AsyncTextureStylizer.get_result` returns exactly the new result, `none`
when nothing new has arrived; `AsyncStylizer.get_result` returns the new
result when one is present and otherwise the cached most recent result,
`none` only when no result has ever arrived. -/
theorem get_result_latest_semantics (s : StylizerOut) (q : Option ℕ) :
    (getResult s).1 = s.outputSlot.or s.lastOutput ∧
    (getResult s).2 = { outputSlot := none, lastOutput := s.outputSlot.or s.lastOutput } ∧
    textureGetResult q = (q, none) := by
  obtain ⟨o, l⟩ := s
  cases o <;> cases q <;> simp [getResult, textureGetResult, Option.or]

/-- C5: the compositor returns the raw frame channel exactly when the blend
factor is at most 0, the styled channel exactly when it is at least 1, and
otherwise the truncated linear blend, which stays within the byte range for
byte inputs. -/
theorem composite_blend_identities (beta : ℚ) (raw styled : ℕ)
    (hr : raw ≤ 255) (hs : styled ≤ 255) :
    (beta ≤ 0 → composite beta raw styled = raw) ∧
    (1 ≤ beta → composite beta raw styled = styled) ∧
    (0 < beta → beta < 1 →
      composite beta raw styled =
        (pyTrunc ((raw : ℚ) * (1 - beta) + (styled : ℚ) * beta)).toNat ∧
      composite beta raw styled ≤ 255) := by
  refine ⟨?_, ?_, ?_⟩
  · intro h0
    rw [composite, if_neg (by linarith), if_pos h0]
  · intro h1
    rw [composite, if_pos h1]
  · intro h0 h1
    have hrq : (raw : ℚ) ≤ 255 := by exact_mod_cast hr
    have hsq : (styled : ℚ) ≤ 255 := by exact_mod_cast hs
    have hb0 : (0 : ℚ) ≤ 1 - beta := by linarith
    have hv0 : (0 : ℚ) ≤ (raw : ℚ) * (1 - beta) + (styled : ℚ) * beta :=
      add_nonneg (mul_nonneg (Nat.cast_nonneg raw) hb0)
        (mul_nonneg (Nat.cast_nonneg styled) h0.le)
    have hv255 : (raw : ℚ) * (1 - beta) + (styled : ℚ) * beta ≤ 255 := by
      have ha := mul_le_mul_of_nonneg_right hrq hb0
      have hb := mul_le_mul_of_nonneg_right hsq h0.le
      linarith
    have hfl : pyTrunc ((raw : ℚ) * (1 - beta) + (styled : ℚ) * beta) ≤ 255 := by
      rw [pyTrunc_eq_floor hv0]
      have hc : (⌊(raw : ℚ) * (1 - beta) + (styled : ℚ) * beta⌋ : ℚ) ≤ 255 :=
        le_trans (Int.floor_le _) hv255
      exact_mod_cast hc
    have htn : (pyTrunc ((raw : ℚ) * (1 - beta) + (styled : ℚ) * beta)).toNat ≤ 255 :=
      Int.toNat_le.mpr (by exact_mod_cast hfl)
    rw [composite, if_neg (by linarith), if_neg (by linarith)]
    rw [Nat.mod_eq_of_lt (by omega)]
    exact ⟨rfl, htn⟩

/-- Witness for C5 at blend 1/2 on channels 10 and 201. -/
theorem composite_blend_identities_witness :
    composite 0 10 201 = 10 ∧ composite 1 10 201 = 201 ∧
    (composite (1/2) 10 201 =
      (pyTrunc ((10 : ℚ) * (1 - 1/2) + (201 : ℚ) * (1/2))).toNat ∧
     composite (1/2) 10 201 ≤ 255) :=
  ⟨(composite_blend_identities 0 10 201 (by norm_num) (by norm_num)).1 le_rfl,
   (composite_blend_identities 1 10 201 (by norm_num) (by norm_num)).2.1 le_rfl,
   (composite_blend_identities (1/2) 10 201 (by norm_num) (by norm_num)).2.2
     (by norm_num) (by norm_num)⟩

/-- C10: if the player's position together with its four margin-0.2 corner
points lies in non-wall cells, then the same holds after `_try_move` toward
any target, for any map: each axis displacement is committed only when the
full clearance test passes at the destination. -/
theorem try_move_preserves_clearance (m : GameMap) (x y newX newY : ℚ)
    (h : checkClear m x y = true) :
    checkClear m (tryMove m x y newX newY).1 (tryMove m x y newX newY).2 = true := by
  unfold tryMove
  dsimp only
  by_cases h1 : checkClear m newX y = true
  · rw [if_pos h1]
    by_cases h2 : checkClear m newX newY = true
    · rw [if_pos h2]
      exact h2
    · rw [if_neg h2]
      exact h1
  · rw [if_neg h1]
    by_cases h2 : checkClear m x newY = true
    · rw [if_pos h2]
      exact h2
    · rw [if_neg h2]
      exact h


/-- Witness for C10 on a one-cell empty map: a blocked move from the center
keeps the clearance invariant. -/
theorem try_move_preserves_clearance_witness :
    checkClear (⟨[[0]]⟩ : GameMap) (1/2) (1/2) = true ∧
    checkClear (⟨[[0]]⟩ : GameMap)
      (tryMove ⟨[[0]]⟩ (1/2) (1/2) 2 2).1 (tryMove ⟨[[0]]⟩ (1/2) (1/2) 2 2).2 = true :=
  ⟨by norm_num [checkClear, GameMap.is_wall, GameMap.get_cell, GameMap.width,
      GameMap.height, pyTrunc],
   try_move_preserves_clearance _ _ _ _ _ (by
      norm_num [checkClear, GameMap.is_wall, GameMap.get_cell, GameMap.width,
        GameMap.height, pyTrunc])⟩

/-- Helper: a pipeline trace of pure submissions leaves the processed
counter unchanged. -/
theorem foldl_submits_processed (ops : List PipeOp) :
    ∀ s : PipeState, (∀ op ∈ ops, ∃ f p, op = PipeOp.submit f p) →
      (ops.foldl applyOp s).framesProcessed = s.framesProcessed := by
  induction ops with
  | nil => intro s _; rfl
  | cons op rest ih =>
    intro s hall
    obtain ⟨f, p, rfl⟩ := hall _ (List.mem_cons_self _ _)
    rw [List.foldl_cons, ih _ (fun o ho => hall o (List.mem_cons_of_mem _ ho))]
    rfl

/-- Helper: one pipeline operation never decreases the processed counter. -/
theorem applyOp_processed_mono (s : PipeState) (op : PipeOp) :
    s.framesProcessed ≤ (applyOp s op).framesProcessed := by
  cases op with
  | submit f p => exact le_rfl
  | start => exact le_rfl
  | stop => exact le_rfl
  | work ok =>
    unfold applyOp
    cases hrun : s.running with
    | false => simp
    | true =>
      cases hin : s.inputSlot with
      | none => simp
      | some fp =>
        obtain ⟨f, p⟩ := fp
        cases ok <;> simp

/-- Helper: along any trace the processed counter plus the pending
submission count is bounded by the number of submissions. -/
theorem foldl_processed_le (ops : List PipeOp) :
    ∀ s : PipeState,
      (ops.foldl applyOp s).framesProcessed + pendingCount (ops.foldl applyOp s) ≤
        s.framesProcessed + pendingCount s + countSubmits ops := by
  induction ops with
  | nil => intro s; simp [countSubmits]
  | cons op rest ih =>
    intro s
    rw [List.foldl_cons]
    have hstep : (applyOp s op).framesProcessed + pendingCount (applyOp s op) ≤
        s.framesProcessed + pendingCount s + countSubmits [op] := by
      cases op with
      | submit f p =>
        simp [applyOp, pendingCount, countSubmits, List.countP, List.countP.go]
      | start => simp [applyOp, pendingCount, countSubmits, List.countP, List.countP.go]
      | stop =>
        simp [applyOp, pendingCount, countSubmits, List.countP, List.countP.go]
      | work ok =>
        unfold applyOp
        cases hrun : s.running with
        | false => simp
        | true =>
          cases hin : s.inputSlot with
          | none => simp
          | some fp =>
            obtain ⟨f, p⟩ := fp
            cases ok <;>
              simp [pendingCount, countSubmits, List.countP, List.countP.go, hin]
    have hrest := ih (applyOp s op)
    have hcons : countSubmits (op :: rest) = countSubmits [op] + countSubmits rest := by
      simp [countSubmits, List.countP_cons]
      omega
    omega

/-- C6: the processed-frames counter of the pipeline is 0 after any number
of submissions with no worker step, never decreases under any operation,
and along any operation sequence never exceeds the number of
submissions. -/
theorem frames_processed_invariants :
    (∀ ops : List PipeOp, (∀ op ∈ ops, ∃ f p, op = PipeOp.submit f p) →
      (runOps ops).framesProcessed = 0) ∧
    (∀ (s : PipeState) (op : PipeOp),
      s.framesProcessed ≤ (applyOp s op).framesProcessed) ∧
    (∀ ops : List PipeOp, (runOps ops).framesProcessed ≤ countSubmits ops) := by
  refine ⟨?_, applyOp_processed_mono, ?_⟩
  · intro ops hall
    rw [runOps, foldl_submits_processed ops initPipe hall]
    rfl
  · intro ops
    have h := foldl_processed_le ops initPipe
    have hinit : initPipe.framesProcessed + pendingCount initPipe = 0 := rfl
    rw [runOps]
    omega

/-- Witness for C6 on concrete traces. -/
theorem frames_processed_invariants_witness :
    (runOps [PipeOp.submit 1 2, PipeOp.submit 3 4]).framesProcessed = 0 ∧
    initPipe.framesProcessed ≤ (applyOp initPipe (PipeOp.submit 1 2)).framesProcessed ∧
    (runOps [PipeOp.submit 1 2, PipeOp.start, PipeOp.work true,
      PipeOp.submit 3 4]).framesProcessed ≤
      countSubmits [PipeOp.submit 1 2, PipeOp.start, PipeOp.work true, PipeOp.submit 3 4] :=
  ⟨frames_processed_invariants.1 _ (by
      intro op hop
      simp only [List.mem_cons, List.not_mem_nil, or_false] at hop
      rcases hop with rfl | rfl
      · exact ⟨1, 2, rfl⟩
      · exact ⟨3, 4, rfl⟩),
   frames_processed_invariants.2.1 initPipe (PipeOp.submit 1 2),
   frames_processed_invariants.2.2 _⟩

/-- C8: `split_atlas` first corrects any incoming image to the exact
128 x 256 atlas shape, its per-type slice never fails, and every wall type
1..8 receives a tile of shape exactly 64 x 64. -/
theorem split_atlas_resizes_and_shapes (img : NpImage) (wallType : ℕ)
    (h1 : 1 ≤ wallType) (h8 : wallType ≤ 8) :
    (atlasSource img).h = 128 ∧ (atlasSource img).w = 256 ∧
    ∃ t, styledTile img wallType = some t ∧ t.h = 64 ∧ t.w = 64 := by
  have hh : (atlasSource img).h = 128 ∧ (atlasSource img).w = 256 := by
    by_cases hc : img.h = 128 ∧ img.w = 256
    · rw [atlasSource, if_pos hc]
      exact hc
    · rw [atlasSource, if_neg hc]
      exact ⟨rfl, rfl⟩
  refine ⟨hh.1, hh.2, ?_⟩
  unfold styledTile cropTile
  rw [if_pos]
  · exact ⟨_, rfl, rfl, rfl⟩
  · refine ⟨?_, ?_⟩
    · rw [hh.1]
      unfold tilePosY
      omega
    · rw [hh.2]
      unfold tilePosX
      omega

/-- Witness for C8 at an incoming 50 x 60 image and wall type 8. -/
theorem split_atlas_resizes_and_shapes_witness :
    (atlasSource ⟨50, 60, fun _ _ => 0⟩).h = 128 ∧
    (atlasSource ⟨50, 60, fun _ _ => 0⟩).w = 256 ∧
    ∃ t, styledTile ⟨50, 60, fun _ _ => 0⟩ 8 = some t ∧ t.h = 64 ∧ t.w = 64 :=
  split_atlas_resizes_and_shapes ⟨50, 60, fun _ _ => 0⟩ 8 (by norm_num) (by norm_num)

/-- Helper: reading back the slice where a tile was just placed returns that
tile's pixel. -/
theorem placeTile_self (atlas : ℕ → ℕ → ℕ) (wallType : ℕ) (tile : ℕ → ℕ → ℕ)
    (r c : ℕ) (hr : r < 64) (hc : c < 64) :
    placeTile atlas wallType tile (tilePosY wallType + r) (tilePosX wallType + c) =
      tile r c := by
  simp only [placeTile]
  rw [if_pos ⟨Nat.le_add_right _ _, by omega, Nat.le_add_right _ _, by omega⟩]
  have h1 : tilePosY wallType + r - tilePosY wallType = r := by omega
  have h2 : tilePosX wallType + c - tilePosX wallType = c := by omega
  rw [h1, h2]

/-- Helper: placing a different wall type's tile does not affect the slice
region of the given wall type. -/
theorem placeTile_ne (atlas : ℕ → ℕ → ℕ) (other : ℕ) (tile : ℕ → ℕ → ℕ)
    (wallType r c : ℕ) (hne : other ≠ wallType) (hw1 : 1 ≤ wallType) (hw8 : wallType ≤ 8)
    (ho1 : 1 ≤ other) (ho8 : other ≤ 8) (hr : r < 64) (hc : c < 64) :
    placeTile atlas other tile (tilePosY wallType + r) (tilePosX wallType + c) =
      atlas (tilePosY wallType + r) (tilePosX wallType + c) := by
  simp only [placeTile]
  rw [if_neg]
  intro h
  obtain ⟨h1, h2, h3, h4⟩ := h
  simp only [tilePosX, tilePosY] at h1 h2 h3 h4
  omega

/-- C7: packing any 8 tiles into the atlas at the fixed 4 x 2 grid offsets
and slicing the atlas back (at its exact dimensions, so without resampling)
reproduces each tile exactly at its wall-type index. -/
theorem atlas_round_trip (tiles : ℕ → ℕ → ℕ → ℕ) (wallType r c : ℕ)
    (hw1 : 1 ≤ wallType) (hw8 : wallType ≤ 8) (hr : r < 64) (hc : c < 64) :
    splitTileAt (createBaseAtlas tiles) wallType r c = tiles wallType r c := by
  interval_cases wallType <;>
    norm_num [splitTileAt, createBaseAtlas, placeTile, tilePosX, tilePosY] <;>
    split_ifs <;>
    first
      | rfl
      | omega

/-- Witness for C7: tile 5, pixel (3, 7), on an injectively labelled tile
family. -/
theorem atlas_round_trip_witness :
    splitTileAt (createBaseAtlas fun w r c => w * 100000 + r * 1000 + c) 5 3 7 =
      (fun w r c => w * 100000 + r * 1000 + c) 5 3 7 :=
  atlas_round_trip (fun w r c => w * 100000 + r * 1000 + c) 5 3 7
    (by norm_num) (by norm_num) (by norm_num) (by norm_num)

/-- Helper: a zero cell value implies the coordinates are inside the map,
since every out-of-bounds lookup returns the wall sentinel 1. -/
theorem get_cell_eq_zero_bounds (m : GameMap) (x y : ℤ) (h : m.get_cell x y = 0) :
    0 ≤ x ∧ x < (m.width : ℤ) ∧ 0 ≤ y ∧ y < (m.height : ℤ) := by
  by_contra hc
  rw [GameMap.get_cell, if_neg hc] at h
  exact one_ne_zero h

/-- Helper: a DDA step never changes the X step direction. -/
theorem ddaStep_stepX (s : DDAState) : (ddaStep s).stepX = s.stepX := by
  rw [ddaStep]
  split <;> rfl

/-- Helper: a DDA step never changes the Y step direction. -/
theorem ddaStep_stepY (s : DDAState) : (ddaStep s).stepY = s.stepY := by
  rw [ddaStep]
  split <;> rfl

/-- Helper: a DDA step advances exactly one cell coordinate by its step
direction and leaves the other unchanged. -/
theorem ddaStep_move (s : DDAState) :
    ((ddaStep s).mapX = s.mapX + s.stepX ∧ (ddaStep s).mapY = s.mapY) ∨
    ((ddaStep s).mapX = s.mapX ∧ (ddaStep s).mapY = s.mapY + s.stepY) := by
  rw [ddaStep]
  split
  · exact Or.inl ⟨rfl, rfl⟩
  · exact Or.inr ⟨rfl, rfl⟩

/-- Helper: while the stepped-into cell is empty (hence in bounds), each DDA
step strictly decreases the termination measure. -/
theorem ddaMeasure_decrease (m : GameMap) (s : DDAState)
    (hsx : s.stepX = 1 ∨ s.stepX = -1) (hsy : s.stepY = 1 ∨ s.stepY = -1)
    (hzero : m.get_cell (ddaStep s).mapX (ddaStep s).mapY = 0) :
    ddaMeasure m (ddaStep s) < ddaMeasure m s := by
  obtain ⟨hb1, hb2, hb3, hb4⟩ := get_cell_eq_zero_bounds m _ _ hzero
  have hpx := ddaStep_stepX s
  have hpy := ddaStep_stepY s
  rcases ddaStep_move s with ⟨h1, h2⟩ | ⟨h1, h2⟩ <;>
    rw [h1] at hb1 hb2 <;>
    rw [h2] at hb3 hb4 <;>
    simp only [ddaMeasure, hpx, hpy, h1, h2] <;>
    rcases hsx with hs | hs <;>
    rcases hsy with ht | ht <;>
    split_ifs <;>
    omega

/-- Helper: with fuel exceeding the termination measure, the DDA loop
reaches a wall cell and returns a hit. -/
theorem ddaLoop_isSome_of_fuel (m : GameMap) :
    ∀ (fuel : ℕ) (s : DDAState), ddaMeasure m s < fuel →
      (s.stepX = 1 ∨ s.stepX = -1) → (s.stepY = 1 ∨ s.stepY = -1) →
      (ddaLoop m fuel s).isSome = true := by
  intro fuel
  induction fuel with
  | zero => intro s h _ _; omega
  | succ n ih =>
    intro s h hx hy
    simp only [ddaLoop]
    by_cases hw : m.get_cell (ddaStep s).mapX (ddaStep s).mapY = 0
    · have hd := ddaMeasure_decrease m s hx hy hw
      have hx' : (ddaStep s).stepX = 1 ∨ (ddaStep s).stepX = -1 := by
        rw [ddaStep_stepX]; exact hx
      have hy' : (ddaStep s).stepY = 1 ∨ (ddaStep s).stepY = -1 := by
        rw [ddaStep_stepY]; exact hy
      rw [if_neg (not_not_intro hw)]
      exact ih (ddaStep s) (by omega) hx' hy'
    · rw [if_pos hw]
      rfl

/-- C1: for every player pose strictly inside the map and every ray
direction, the DDA loop of `cast_rays` terminates within
`width + height + 1` iterations (the out-of-bounds-as-wall rule bounds it),
and the perpendicular distance, after clamping, always lies in
(0, MAX_DEPTH]. -/
theorem cast_rays_dda_terminates_and_clamped (m : GameMap) (px py rx ry : ℚ)
    (hx0 : 0 < px) (hxw : px < (m.width : ℚ)) (hy0 : 0 < py) (hyh : py < (m.height : ℚ)) :
    (ddaLoop m (m.width + m.height + 1) (ddaInit px py rx ry)).isSome = true ∧
    ∀ (sd : ℕ) (mX mY sX sY : ℤ),
      0 < clampDepth (perpDistRaw sd mX mY sX sY px py rx ry) ∧
      clampDepth (perpDistRaw sd mX mY sX sY px py rx ry) ≤ 25 := by
  constructor
  · have hfx : pyTrunc px = ⌊px⌋ := pyTrunc_eq_floor hx0.le
    have hfy : pyTrunc py = ⌊py⌋ := pyTrunc_eq_floor hy0.le
    have hmx0 : 0 ≤ pyTrunc px := by
      rw [hfx]; exact Int.floor_nonneg.mpr hx0.le
    have hmxw : pyTrunc px < (m.width : ℤ) := by
      rw [hfx]; exact Int.floor_lt.mpr (by exact_mod_cast hxw)
    have hmy0 : 0 ≤ pyTrunc py := by
      rw [hfy]; exact Int.floor_nonneg.mpr hy0.le
    have hmyh : pyTrunc py < (m.height : ℤ) := by
      rw [hfy]; exact Int.floor_lt.mpr (by exact_mod_cast hyh)
    apply ddaLoop_isSome_of_fuel
    · simp only [ddaMeasure, ddaInit]
      split_ifs <;> omega
    · simp only [ddaInit]
      split_ifs
      · exact Or.inr rfl
      · exact Or.inl rfl
    · simp only [ddaInit]
      split_ifs
      · exact Or.inr rfl
      · exact Or.inl rfl
  · intro sd mX mY sX sY
    constructor
    · exact lt_of_lt_of_le (by norm_num) (le_max_left (1/1000) _)
    · exact max_le (by norm_num) (min_le_right _ _)

/-- Witness for C1 on the one-cell all-wall map, player at its center,
ray pointing east. -/
theorem cast_rays_dda_terminates_and_clamped_witness :
    (ddaLoop ⟨[[1]]⟩ (GameMap.width ⟨[[1]]⟩ + GameMap.height ⟨[[1]]⟩ + 1)
        (ddaInit (1/2) (1/2) 1 0)).isSome = true ∧
    (0 < clampDepth (perpDistRaw 0 1 0 1 1 (1/2) (1/2) 1 0) ∧
     clampDepth (perpDistRaw 0 1 0 1 1 (1/2) (1/2) 1 0) ≤ 25) :=
  ⟨(cast_rays_dda_terminates_and_clamped ⟨[[1]]⟩ (1/2) (1/2) 1 0
      (by norm_num) (by norm_num [GameMap.width]) (by norm_num)
      (by norm_num [GameMap.height])).1,
   (cast_rays_dda_terminates_and_clamped ⟨[[1]]⟩ (1/2) (1/2) 1 0
      (by norm_num) (by norm_num [GameMap.width]) (by norm_num)
      (by norm_num [GameMap.height])).2 0 1 0 1 1⟩
